import Mathlib

/-!
# Verification of the lesson-scheduling, attendance, grading and trial-lesson
# logic of the school-management backend

Shallow embedding of the route handlers in
`packages/backend/routes/{admin,lessons,grades,groups}.py` and of
`packages/backend/app/system_settings.py`.

Conventions of the embedding:
* Calendar dates are day numbers (`Nat`): days since 2024-01-01, which is a
  Monday.  Python's `date.weekday()` (Monday = 0) is therefore `d % 7`.
* Timestamps (`lessons.start_time`) are minutes: `day * 1440 + timeOfDay`,
  carried as `Int` so that interval arithmetic matches SQL comparisons.
* The admin-facing day-of-week numbering is 0 = Sunday .. 6 = Saturday, as in
  the `group_schedules` table; Postgres `EXTRACT(DOW ...)` uses the same
  Sunday-0 numbering.
* `duration_minutes` is modelled as a plain `Int` (every insert path of the
  code supplies a value, so the SQL `NULL` case does not arise for rows the
  generators create).
-/

namespace NDA

/-- Python `date.weekday()`: Monday = 0, ..., Sunday = 6.
Day number 0 (2024-01-01) is a Monday. -/
def pyWeekday (d : Nat) : Nat := d % 7

/-- `add_group_schedule` (admin.py): `target_weekday = (data.day_of_week - 1) % 7`,
converting the Sunday-0 admin numbering to Python's Monday-0 numbering.
Python's `%` returns a nonnegative result, so for `dow` in `0..6` this is
`(dow + 6) % 7`. -/
def dowToPyWeekday (dow : Nat) : Nat := (dow + 6) % 7

/-- A row of the `lessons` table, restricted to the columns the scheduling
logic reads: primary key, `group_id`, `start_time` (minutes) and
`duration_minutes`. -/
structure Lesson where
  id : Nat
  groupId : Nat
  start : Int
  duration : Int
  deriving DecidableEq, Repr

/-- `start_time + INTERVAL '1 minute' * duration_minutes`. -/
def lessonEnd (l : Lesson) : Int := l.start + l.duration

/-- The overlap condition of the `create_group_lessons` SQL
(admin.py, both the single-lesson and the repeat branch):

    (start_time <= $2 AND start_time + dur > $2) OR
    (start_time <  $3 AND start_time + dur >= $3) OR
    (start_time >= $2 AND start_time < $3)

with `$2` = proposed start `s` and `$3` = proposed end `e`. -/
def cglOverlapB (l : Lesson) (s e : Int) : Bool :=
  (decide (l.start ≤ s) && decide (lessonEnd l > s)) ||
  (decide (l.start < e) && decide (lessonEnd l ≥ e)) ||
  (decide (l.start ≥ s) && decide (l.start < e))

/-- `create_group_lessons`: an existing lesson of the same group matching the
overlap condition. -/
def cglConflict (lessons : List Lesson) (gid : Nat) (s e : Int) : Bool :=
  lessons.any (fun l => decide (l.groupId = gid) && cglOverlapB l s e)

/-- The row filter of the `reschedule_lesson` conflict query (admin.py):

    l.group_id = $1 AND l.id != $2 AND l.start_time < $4
      AND l.start_time + COALESCE(l.duration_minutes, 60) * '1 min' > $3

with `$3` = new start `ns` and `$4` = new end `ne`. -/
def reschedMatch (l : Lesson) (gid lid : Nat) (ns ne : Int) : Bool :=
  decide (l.groupId = gid) && decide (l.id ≠ lid) &&
  decide (l.start < ne) && decide (lessonEnd l > ns)

/-- Python `lesson["duration_minutes"] or 60`: `0` (and `None`) are falsy. -/
def pyOr60 (d : Int) : Int := if d = 0 then 60 else d

/-- `reschedule_lesson` (admin.py): look the lesson up, compute the new end
from its (defaulted) duration, reject with 400 if a conflicting lesson of the
same group exists, otherwise update the row's `start_time`.  A missing lesson
is a 404. -/
def rescheduleLesson (lessons : List Lesson) (lid : Nat) (newStart : Int) :
    Except Nat (List Lesson) :=
  match lessons.find? (fun l => l.id == lid) with
  | none => .error 404
  | some l =>
    let dur := pyOr60 l.duration
    let ne := newStart + dur
    match lessons.find? (fun x => reschedMatch x l.groupId lid newStart ne) with
    | some _ => .error 400
    | none => .ok (lessons.map (fun x =>
        if x.id = lid then { x with start := newStart } else x))

/-- `create_lesson` (lessons.py, `POST /lessons`): the handler inserts the row
directly; it contains no conflict query of any kind. -/
def createLesson (lessons : List Lesson) (l : Lesson) : List Lesson :=
  l :: lessons

/-- Two lessons of the same group whose half-open intervals overlap. -/
def intervalsOverlapB (a b : Lesson) : Bool :=
  decide (a.start < lessonEnd b) && decide (b.start < lessonEnd a)

/-- Some pair of lessons of the same group overlaps. -/
def hasGroupOverlap : List Lesson → Bool
  | [] => false
  | l :: rest =>
    rest.any (fun x => decide (x.groupId = l.groupId) && intervalsOverlapB l x) ||
    hasGroupOverlap rest

/-- `SELECT id FROM lessons WHERE group_id = $1 AND start_time = $2` — the
exact-timestamp duplicate check of `add_group_schedule` and of
`generate_lesson_instances`. -/
def existsExactLesson (lessons : List Lesson) (gid : Nat) (t : Int) : Bool :=
  lessons.any (fun l => decide (l.groupId = gid) && decide (l.start = t))

/-- `while current_date.weekday() != target_weekday: current_date += 1`
(admin.py, `add_group_schedule`).  The loop is embedded with explicit fuel;
for a valid target weekday (< 7) it stops within 7 steps, so the callers use
fuel 7. -/
def advanceToWeekday : Nat → Nat → Nat → Nat
  | 0, d, _ => d
  | fuel + 1, d, target => if pyWeekday d = target then d else advanceToWeekday fuel (d + 1) target

/-- The lesson-generation loop of `add_group_schedule` (admin.py):

    while current_date <= end_date and lessons_created < 20:
        if no lesson row with (group_id, start_time): insert one
        current_date += timedelta(days=7)

`tm` is the schedule's start time in minutes of the day, `dur` the group's
duration (`duration_minutes or 90`).  Inserted rows get primary key 0: the
key plays no role in the generation logic. -/
def addGenLoop (gid : Nat) (tm : Nat) (dur : Int) (endDate : Nat)
    (current : Nat) (created : Nat) (lessons : List Lesson) : List Lesson × Nat :=
  if current ≤ endDate ∧ created < 20 then
    if existsExactLesson lessons gid ((current * 1440 + tm : Nat) : Int) then
      addGenLoop gid tm dur endDate (current + 7) created lessons
    else
      addGenLoop gid tm dur endDate (current + 7) (created + 1)
        ({ id := 0, groupId := gid, start := ((current * 1440 + tm : Nat) : Int),
           duration := dur } :: lessons)
  else (lessons, created)
  termination_by endDate + 1 - current
  decreasing_by all_goals (simp_wf; omega)

/-- The first candidate date of `add_group_schedule`: starting from
`max(start_date, today)`, the first date whose Python weekday is
`(day_of_week - 1) % 7`. -/
def addFirstDate (dow today startDate : Nat) : Nat :=
  advanceToWeekday 7 (max startDate today) (dowToPyWeekday dow)

/-- `add_group_schedule` (admin.py), the generation part: advance to the
first candidate date, then run the capped weekly loop.  `endDate` is
`recurring_until` when set, otherwise `start_date + 90` days (computed by the
caller in the route). -/
def addGroupScheduleGen (gid : Nat) (dow : Nat) (tm : Nat) (dur : Int)
    (today startDate endDate : Nat) (lessons : List Lesson) : List Lesson × Nat :=
  addGenLoop gid tm dur endDate (addFirstDate dow today startDate) 0 lessons

/-- The repeat-branch loop of `create_group_lessons` (admin.py):

    while current_date <= end_date and lessons_created < 100:
        if not overlapping: insert
        advance current_date by the repeat frequency

The date advance (7 days for weekly, 14 for biweekly, one calendar month with
year rollover for monthly) is abstracted as a strictly increasing `step`
function: none of the properties proved below depend on the calendar details
of the step. `tm`/`te` are the validated start/end times in minutes of the
day; the stored duration is `te - tm`, exactly as the route computes it. -/
def cglGenLoop (gid : Nat) (tm te : Nat) (endDate : Nat)
    (step : Nat → Nat) (hstep : ∀ d, d < step d)
    (current : Nat) (created : Nat) (lessons : List Lesson) : List Lesson × Nat :=
  if current ≤ endDate ∧ created < 100 then
    if cglConflict lessons gid ((current * 1440 + tm : Nat) : Int)
        ((current * 1440 + te : Nat) : Int) then
      cglGenLoop gid tm te endDate step hstep (step current) created lessons
    else
      cglGenLoop gid tm te endDate step hstep (step current) (created + 1)
        ({ id := 0, groupId := gid, start := ((current * 1440 + tm : Nat) : Int),
           duration := (te : Int) - (tm : Int) } :: lessons)
  else (lessons, created)
  termination_by endDate + 1 - current
  decreasing_by all_goals (simp_wf; have := hstep current; omega)

/-- The single-lesson branch of `create_group_lessons` (admin.py,
`repeat_enabled = False`): reject with 400 when the overlap query matches,
insert otherwise. -/
def cglSingle (gid : Nat) (date : Nat) (tm te : Nat) (lessons : List Lesson) :
    Except Nat (List Lesson) :=
  let s : Int := ((date * 1440 + tm : Nat) : Int)
  let e : Int := ((date * 1440 + te : Nat) : Int)
  if cglConflict lessons gid s e then .error 400
  else .ok ({ id := 0, groupId := gid, start := s, duration := (te : Int) - (tm : Int) } :: lessons)

/-- The target date of one `generate_lesson_instances` step (admin.py): map
the Sunday-0 `day_of_week` to Python's Monday-0 numbering, then
`days_ahead = python_weekday - week_start.weekday()`, wrapped by +7 when
negative. -/
def genInstanceTarget (dow weekStart : Nat) : Nat :=
  let pyW : Int := if dow = 0 then 6 else (dow : Int) - 1
  let daysAhead : Int := pyW - (pyWeekday weekStart : Int)
  let daysAhead : Int := if daysAhead < 0 then daysAhead + 7 else daysAhead
  weekStart + daysAhead.toNat

/-- One (group, schedule-row) step of `generate_lesson_instances` (admin.py):
insert a lesson at the target date's slot unless a row with the exact
(group, start_time) already exists. -/
def genInstanceStep (lessons : List Lesson) (gid : Nat) (dow : Nat) (tm : Nat)
    (dur : Int) (weekStart : Nat) : List Lesson :=
  if existsExactLesson lessons gid
      ((genInstanceTarget dow weekStart * 1440 + tm : Nat) : Int) then lessons
  else { id := 0, groupId := gid,
         start := ((genInstanceTarget dow weekStart * 1440 + tm : Nat) : Int),
         duration := dur } :: lessons

/-- The weekly date advance `current_date += timedelta(weeks=1)` of the
`create_group_lessons` repeat loop. -/
def stepWeekly (d : Nat) : Nat := d + 7

/-! ## Schedule-pattern sync (`sync_group_schedules_with_lessons`, admin.py)

The sync deletes the group's `group_schedules` rows, reads the distinct
`(EXTRACT(DOW FROM start_time), start_time::time)` pairs of the group's
lessons ordered by `(day_of_week, lesson_time)`, and inserts them one by one
with `ON CONFLICT (group_id, day_of_week) DO UPDATE SET start_time = $3`.
The per-group slice of the table is a list of `(day_of_week, time)` pairs. -/

/-- Postgres `EXTRACT(DOW FROM start_time)`: Sunday = 0 .. Saturday = 6.
Day number 0 is a Monday, hence DOW `= (day + 1) % 7`. -/
def pgDow (t : Int) : Int := (t / 1440 + 1) % 7

/-- `start_time::time`, in minutes of the day. -/
def timeOfDay (t : Int) : Int := t % 1440

/-- Lexicographic order on `(day_of_week, lesson_time)` pairs — the
`ORDER BY day_of_week, lesson_time` of the sync query. -/
def pairLe (p q : Int × Int) : Prop := p.1 < q.1 ∨ (p.1 = q.1 ∧ p.2 ≤ q.2)

instance instDecidablePairLe (p q : Int × Int) : Decidable (pairLe p q) :=
  inferInstanceAs (Decidable (p.1 < q.1 ∨ (p.1 = q.1 ∧ p.2 ≤ q.2)))

instance instTotalPairLe : IsTotal (Int × Int) pairLe :=
  ⟨fun a b => by unfold pairLe; omega⟩

instance instTransPairLe : IsTrans (Int × Int) pairLe :=
  ⟨fun a b c hab hbc => by unfold pairLe at *; omega⟩

/-- Sorting by `(day_of_week, lesson_time)`. -/
def sortPairs (l : List (Int × Int)) : List (Int × Int) :=
  List.insertionSort pairLe l

/-- `SELECT DISTINCT EXTRACT(DOW ...), start_time::time ... ORDER BY 1, 2`
over the group's lessons. -/
def syncPairs (lessons : List Lesson) (gid : Nat) : List (Int × Int) :=
  sortPairs (((lessons.filter (fun l => l.groupId = gid)).map
    (fun l => (pgDow l.start, timeOfDay l.start))).dedup)

/-- `INSERT ... ON CONFLICT (group_id, day_of_week) DO UPDATE SET start_time`:
within one group the conflict key is the day-of-week alone, so a second time
on the same day overwrites the first. -/
def upsertSchedule (table : List (Int × Int)) (d t : Int) : List (Int × Int) :=
  if table.any (fun p => p.1 = d) then
    table.map (fun p => if p.1 = d then (d, t) else p)
  else table ++ [(d, t)]

/-- `sync_group_schedules_with_lessons` (admin.py): delete the group's rows
(start from the empty per-group table) and upsert the distinct pairs in
query order. -/
def syncGroupSchedules (lessons : List Lesson) (gid : Nat) : List (Int × Int) :=
  (syncPairs lessons gid).foldl (fun tab p => upsertSchedule tab p.1 p.2) []

/-- `create_group_lessons`, repeat branch, end to end: run the generation
loop starting at the requested date, then run the sync step on the resulting
lessons (the route calls `sync_group_schedules_with_lessons` before
committing).  Returns ((lessons, created), per-group pattern rows). -/
def createGroupLessonsRepeat (gid : Nat) (startDate : Nat) (tm te : Nat)
    (endDate : Nat) (step : Nat → Nat) (hstep : ∀ d, d < step d)
    (lessons : List Lesson) : (List Lesson × Nat) × List (Int × Int) :=
  let r := cglGenLoop gid tm te endDate step hstep startDate 0 lessons
  (r, syncGroupSchedules r.1 gid)

/-! ## Grade-scale conversion (grades.py) -/

/-- Postgres `ROUND(x, 2)` on `numeric`: round half away from zero to two
decimals.  Grade values are validated nonnegative (`value: float = Field(...,
ge=0)`), where this agrees with the half-up rounding used here. -/
def round2 (q : ℚ) : ℚ := ((⌊q * 100 + 1 / 2⌋ : ℤ) : ℚ) / 100

/-- `_convert_grades_scale` (grades.py): no-op when the scales agree, factor
20 from "0-5" to "0-100", factor 0.05 (= 5/100 exactly) in the reverse
direction, no-op for any other pair; the update stores
`ROUND(value * factor, 2)`.  The table's single numeric `value` column is
modelled (the defensive duplicate update of a legacy `grade_value` column
applies the same expression). -/
def convertGradesScale (fromScale toScale : String) (grades : List ℚ) : List ℚ :=
  if fromScale = toScale then grades
  else if fromScale = "0-5" ∧ toScale = "0-100" then
    grades.map (fun v => round2 (v * 20))
  else if fromScale = "0-100" ∧ toScale = "0-5" then
    grades.map (fun v => round2 (v * (5 / 100)))
  else grades

/-- The state `_ensure_grades_scale_applied` works on: the stored grade
values, the `grades.scale` setting and the `grades.scale_applied` marker
(absent on first run). -/
structure GradesState where
  grades : List ℚ
  currentScale : String
  appliedScale : Option String
  deriving DecidableEq, Repr

/-- `SELECT MAX(value) FROM grades`. -/
def maxGrade : List ℚ → Option ℚ
  | [] => none
  | g :: gs => some (gs.foldl max g)

/-- Scale inference of `_ensure_grades_scale_applied` when no marker exists:
"0-100" when some stored value exceeds 5.5, else "0-5". -/
def inferScale (grades : List ℚ) : String :=
  match maxGrade grades with
  | some m => if m > 11 / 2 then "0-100" else "0-5"
  | none => "0-5"

/-- `_ensure_grades_scale_applied` (grades.py): with no marker, infer the
applied scale, convert if it differs from the configured scale and record the
marker; with a marker equal to the configured scale do nothing; otherwise
convert from the marker's scale and update the marker. -/
def ensureGradesScaleApplied (s : GradesState) : GradesState :=
  match s.appliedScale with
  | none =>
    let applied := inferScale s.grades
    let g' := if applied ≠ s.currentScale then
        convertGradesScale applied s.currentScale s.grades
      else s.grades
    { s with grades := g', appliedScale := some s.currentScale }
  | some a =>
    if a = s.currentScale then s
    else { s with grades := convertGradesScale a s.currentScale s.grades,
                  appliedScale := some s.currentScale }

/-- The sequence of database states visible to other connections while
`_ensure_grades_scale_applied` runs in the converting case.  The function
executes on the connection pool — `pool.execute` statements autocommit one by
one, there is no enclosing `conn.transaction()` — so after the grades
`UPDATE` and before the marker upsert the half-converted state is committed
and visible.  Non-converting runs issue no write (only the marker upsert on
first run). -/
def ensureGradesVisibleStates (s : GradesState) : List GradesState :=
  match s.appliedScale with
  | none =>
    let applied := inferScale s.grades
    if applied ≠ s.currentScale then
      [s,
       { s with grades := convertGradesScale applied s.currentScale s.grades },
       { s with grades := convertGradesScale applied s.currentScale s.grades,
                appliedScale := some s.currentScale }]
    else [s, { s with appliedScale := some s.currentScale }]
  | some a =>
    if a = s.currentScale then [s]
    else
      [s,
       { s with grades := convertGradesScale a s.currentScale s.grades },
       { s with grades := convertGradesScale a s.currentScale s.grades,
                appliedScale := some s.currentScale }]

/-! ## Attendance aggregation (admin.py) -/

/-- The `attendance_records.status` values the scoring `CASE` distinguishes;
`unknown` stands for any other stored string (the `ELSE 0` arm). -/
inductive AttStatus
  | P | E | L | A | unknown
  deriving DecidableEq, Repr

/-- `CASE ar.status WHEN 'P' THEN 2 WHEN 'E' THEN 2 WHEN 'L' THEN 1
WHEN 'A' THEN 0 ELSE 0 END` — identical in `get_group_details` and in
`get_students_analytics`. -/
def statusPoints : AttStatus → ℚ
  | .P => 2
  | .E => 2
  | .L => 1
  | .A => 0
  | .unknown => 0

/-- Python's `round(x, 1)` ties-to-even rounding, on exact rationals. -/
def roundHalfEven (q : ℚ) : ℤ :=
  if q - ⌊q⌋ < 1 / 2 then ⌊q⌋
  else if q - ⌊q⌋ > 1 / 2 then ⌊q⌋ + 1
  else if 2 ∣ ⌊q⌋ then ⌊q⌋ else ⌊q⌋ + 1

/-- Round to one decimal, ties to even. -/
def round1 (q : ℚ) : ℚ := ((roundHalfEven (q * 10) : ℤ) : ℚ) / 10

/-- The percentage computation shared by `get_group_details` and
`get_students_analytics` (admin.py): `total_points` sums the status points
over the student's attendance rows, `max_points = marked * 2`, and

    round((total_points / max_points * 100), 1) if max_points > 0 else 0 -/
def attendancePct (rows : List AttStatus) : ℚ :=
  let totalPoints := (rows.map statusPoints).sum
  let maxPoints : ℚ := (rows.length : ℚ) * 2
  if maxPoints > 0 then round1 (totalPoints / maxPoints * 100) else 0

/-- `get_students_analytics` (admin.py), per (student, group): per-lesson
view, where a lesson with no attendance row contributes `none`.  The SQL
aggregates only over rows of `attendance_records`, i.e. over the marked
lessons; there is no trial-enrollment branch in this endpoint. -/
def groupAttendancePct (marks : List (Option AttStatus)) : ℚ :=
  attendancePct (marks.filterMap id)

/-- The per-student aggregation of `get_group_details` (admin.py): `records`
are the student's `attendance_records` rows for the group, each carrying its
lesson's `start_time` (minute precision, so `date_trunc('minute', ...)` is
the identity here) and status; `trialStart` is `tlu.lesson_start_time`, the
latest `trial_lesson_usages` row for the (student, group) pair, absent when
there is no such row.  For a trial enrollment (`gs.is_trial`) the `CASE`
takes `agg_trial`, which counts only the records whose lesson start equals
`tlu.lesson_start_time` and is empty when that is NULL; otherwise it takes
`agg_all` over all of the student's records for the group. -/
def groupDetailsMarked (isTrial : Bool) (trialStart : Option Int)
    (records : List (Int × AttStatus)) : List AttStatus :=
  if isTrial then
    match trialStart with
    | none => []
    | some ts => (records.filter (fun r => r.1 = ts)).map Prod.snd
  else records.map Prod.snd

/-- The attendance percentage reported by `get_group_details` for one
student of the group: the shared rounding formula applied to the
branch-selected marked rows. -/
def groupDetailsPct (isTrial : Bool) (trialStart : Option Int)
    (records : List (Int × AttStatus)) : ℚ :=
  attendancePct (groupDetailsMarked isTrial trialStart records)

/-! ## Trial lessons (groups.py, admin.py) and settings
(app/system_settings.py) -/

/-- The per-student trial columns `trial_lesson` reads and writes. -/
structure Student where
  trialUsed : Bool
  trialsAllowed : Int
  trialsUsed : Int
  deriving DecidableEq, Repr

/-- `trial_lesson` (groups.py, `POST /groups/{id}/trial`), inside one
transaction: 409 when `trials_used >= trials_allowed`; 409 when the student
is already a member of the group; otherwise insert the trial membership row
and set `trials_used += 1`, `trial_used = (new_trials_used >=
trials_allowed)`.  On success the returned flag records the inserted
`group_students` trial membership. -/
def trialLesson (st : Student) (alreadyMember : Bool) :
    Except Nat (Student × Bool) :=
  if st.trialsUsed ≥ st.trialsAllowed then .error 409
  else if alreadyMember then .error 409
  else
    let newUsed := st.trialsUsed + 1
    .ok ({ trialUsed := newUsed ≥ st.trialsAllowed,
           trialsAllowed := st.trialsAllowed,
           trialsUsed := newUsed }, true)

/-- `get_bool_setting` (app/system_settings.py) restricted to boolean-valued
stored settings: the stored value when the key exists, the default
otherwise. -/
def getBoolSetting (settings : List (String × Bool)) (key : String)
    (dflt : Bool) : Bool :=
  match settings.lookup key with
  | some b => b
  | none => dflt

/-- `GET /admin/trial-lessons/students` (admin.py): 403 with a fixed message
when `trial_lessons.enabled` is off, otherwise list every student with
`trials_remaining = max(0, allowed - used)`.  A student is `(id, allowed,
used)`. -/
def getTrialLessonsStudents (settings : List (String × Bool))
    (students : List (Nat × Int × Int)) :
    Except Nat (List (Nat × Int × Int × Int)) :=
  if ¬ getBoolSetting settings "trial_lessons.enabled" true then .error 403
  else .ok (students.map (fun s => (s.1, s.2.1, s.2.2, max 0 (s.2.1 - s.2.2))))

/-- `POST /admin/trial-lessons/students/{id}/adjust` (admin.py): 403 when the
feature is off; 404 when the student is missing; 400 when the new allowance
would drop below the trials already used; otherwise store
`trials_allowed := allowed + delta` (clamped at 0). -/
def adjustStudentTrialLessons (settings : List (String × Bool))
    (students : List (Nat × Int × Int)) (sid : Nat) (delta : Int) :
    Except Nat (List (Nat × Int × Int)) :=
  if ¬ getBoolSetting settings "trial_lessons.enabled" true then .error 403
  else
    match students.find? (fun s => s.1 == sid) with
    | none => .error 404
    | some s =>
      let newAllowed := s.2.1 + delta
      if newAllowed < s.2.2 then .error 400
      else
        let newAllowed := if newAllowed < 0 then 0 else newAllowed
        .ok (students.map (fun x => if x.1 = sid then (x.1, newAllowed, x.2.2) else x))

/-- `GET /admin/trial-lessons/students/{id}/history` (admin.py): 403 when the
feature is off, otherwise the student's `trial_lesson_usages` rows (the
projection and ordering of the returned columns play no role in the gating
property and are not modelled). -/
def getStudentTrialHistory (settings : List (String × Bool))
    (usages : List (Nat × Nat)) (sid : Nat) : Except Nat (List (Nat × Nat)) :=
  if ¬ getBoolSetting settings "trial_lessons.enabled" true then .error 403
  else .ok (usages.filter (fun u => u.1 == sid))

/-- The student-facing trial-registration route `POST /groups/{id}/trial`
(groups.py) as a function of the settings store: the handler body never reads
`system_settings`, so the result is `trialLesson` regardless of the
`trial_lessons.enabled` value. -/
def trialLessonRoute (_settings : List (String × Bool)) (st : Student)
    (alreadyMember : Bool) : Except Nat (Student × Bool) :=
  trialLesson st alreadyMember

/-! ## Derived notions used to state the properties -/

/-- Number of lesson rows with the given group and exact start timestamp. -/
def countAt (ls : List Lesson) (gid : Nat) (t : Int) : Nat :=
  (ls.filter (fun l => decide (l.groupId = gid) && decide (l.start = t))).length

/-- No two lessons of group `gid` have overlapping half-open intervals. -/
def NoGroupConflicts (gid : Nat) (ls : List Lesson) : Prop :=
  (ls.filter (fun l => l.groupId = gid)).Pairwise
    (fun a b => ¬ (a.start < lessonEnd b ∧ b.start < lessonEnd a))

/-- Every lesson of group `gid` has a positive duration. -/
def GroupDurationsPos (gid : Nat) (ls : List Lesson) : Prop :=
  ∀ l ∈ ls, l.groupId = gid → 0 < l.duration

/-- The `start_time` stored for day-of-week `d` in a per-group schedule
table. -/
def tableGet (tab : List (Int × Int)) (d : Int) : Option Int :=
  (tab.find? (fun p => p.1 == d)).map (fun p => p.2)

/-- The value attached to the last pair with key `d` in a pair list (later
pairs win, as consecutive upserts on the same key do). -/
def lastVal (ps : List (Int × Int)) (d : Int) : Option Int :=
  match ps with
  | [] => none
  | p :: ps => (lastVal ps d).orElse (fun _ => if p.1 = d then some p.2 else none)

/-! # Theorems -/

/-- The three-disjunct SQL overlap condition coincides with the half-open
interval overlap `s < e2 ∧ s2 < e` whenever the proposed interval is nonempty
and the stored lesson has positive duration. -/
theorem cglOverlapB_iff (l : Lesson) (s e : Int) (hse : s < e)
    (hdur : 0 < l.duration) :
    cglOverlapB l s e = true ↔ (s < lessonEnd l ∧ l.start < e) := by
  simp only [cglOverlapB, lessonEnd, Bool.or_eq_true, Bool.and_eq_true,
    decide_eq_true_eq, gt_iff_lt, ge_iff_le] at *
  omega

/-- C2: both conflict queries decide exactly the half-open overlap condition
`s1 < e2 ∧ s2 < e1` against a lesson of positive duration, given a proposed
interval with `s < e` (the routes validate `start_time < end_time`); in
particular back-to-back intervals (one end equal to the other start) are not
conflicts. -/
theorem conflict_iff_halfopen_overlap
    (l : Lesson) (gid lid : Nat) (s e : Int)
    (hse : s < e) (hdur : 0 < l.duration) :
    (cglOverlapB l s e = true ↔ (s < lessonEnd l ∧ l.start < e)) ∧
    (reschedMatch l gid lid s e = true ↔
      (l.groupId = gid ∧ l.id ≠ lid ∧ s < lessonEnd l ∧ l.start < e)) ∧
    (lessonEnd l = s → cglOverlapB l s e = false) ∧
    (l.start = e → cglOverlapB l s e = false) := by
  have hiff := cglOverlapB_iff l s e hse hdur
  refine ⟨hiff, ?_, ?_, ?_⟩
  · simp only [reschedMatch, lessonEnd, Bool.and_eq_true, decide_eq_true_eq]
    tauto
  · intro h
    cases hb : cglOverlapB l s e with
    | false => rfl
    | true => exact absurd (hiff.mp hb).1 (by omega)
  · intro h
    cases hb : cglOverlapB l s e with
    | false => rfl
    | true => exact absurd (hiff.mp hb).2 (by omega)

/-- Witness for `conflict_iff_halfopen_overlap`: the end-to-end scenario of
the spec — proposed 10:00–11:00 against an existing 10:30–11:30 lesson of the
same group is a conflict, and the back-to-back case is not. -/
theorem conflict_iff_halfopen_overlap_witness :
    cglOverlapB ⟨1, 1, 630, 60⟩ 600 660 = true ∧
    cglOverlapB ⟨1, 1, 660, 60⟩ 600 660 = false := by
  have h := conflict_iff_halfopen_overlap ⟨1, 1, 630, 60⟩ 1 2 600 660
    (by norm_num) (by norm_num)
  have h' := conflict_iff_halfopen_overlap ⟨1, 1, 660, 60⟩ 1 2 600 660
    (by norm_num) (by norm_num)
  refine ⟨h.1.mpr ⟨by norm_num [lessonEnd], by norm_num⟩, h'.2.2.2 rfl⟩

/-- C9: the trial-lesson request preserves `trials_used ≤ trials_allowed` —
any successful request yields a student state satisfying the invariant and
increments the counter by one while recording the trial membership; a student
with `trials_allowed = 1, trials_used = 0` succeeds and ends with
`trials_used = 1` and `trial_used = true`; and any request with
`trials_used ≥ trials_allowed` is rejected with 409 (the transaction performs
no write in that case, so the stored counters are untouched). -/
theorem trial_lesson_invariant :
    (∀ (st : Student) (m : Bool) (st' : Student) (b : Bool),
      trialLesson st m = .ok (st', b) →
        st'.trialsUsed ≤ st'.trialsAllowed ∧
        st'.trialsUsed = st.trialsUsed + 1 ∧
        st'.trialsAllowed = st.trialsAllowed ∧ b = true) ∧
    (trialLesson ⟨false, 1, 0⟩ false =
      .ok (⟨true, 1, 1⟩, true)) ∧
    (∀ (st : Student) (m : Bool), st.trialsUsed ≥ st.trialsAllowed →
      trialLesson st m = .error 409) := by
  refine ⟨?_, rfl, ?_⟩
  · intro st m st' b h
    unfold trialLesson at h
    split_ifs at h with h1 h2
    all_goals simp only [Except.ok.injEq, Prod.mk.injEq, reduceCtorEq] at h
    obtain ⟨hst, hb⟩ := h
    subst hst
    subst hb
    refine ⟨?_, rfl, rfl, rfl⟩
    show st.trialsUsed + 1 ≤ st.trialsAllowed
    omega
  · intro st m h
    unfold trialLesson
    rw [if_pos h]

/-- Witness for `trial_lesson_invariant`: the invariant conclusion at the
concrete successful request, and the 409 on a second request of the same
student. -/
theorem trial_lesson_invariant_witness :
    ((⟨true, 1, 1⟩ : Student).trialsUsed ≤ (⟨true, 1, 1⟩ : Student).trialsAllowed) ∧
    trialLesson ⟨true, 1, 1⟩ false = .error 409 := by
  refine ⟨(trial_lesson_invariant.1 ⟨false, 1, 0⟩ false ⟨true, 1, 1⟩ true
    rfl).1, trial_lesson_invariant.2.2 ⟨true, 1, 1⟩ false (by decide)⟩

/-- C10 counterexample: with `trial_lessons.enabled` stored as `false`, the
student-facing trial-registration endpoint does not reject — it performs the
registration (the handler in groups.py never reads the setting), so it is not
the case that every trial-related endpoint rejects when the feature is
disabled. -/
theorem trial_disabled_student_route_not_gated :
    getBoolSetting [("trial_lessons.enabled", false)] "trial_lessons.enabled" true = false ∧
    trialLessonRoute [("trial_lessons.enabled", false)] ⟨false, 1, 0⟩ false =
      .ok (⟨true, 1, 1⟩, true) := by
  constructor
  · rfl
  · rfl

/-- C10 (amended): when `trial_lessons.enabled` is false, the three admin
trial-management endpoints reject with the fixed 403 error, while the
student-facing trial-registration endpoint ignores the setting and behaves
exactly as `trialLesson` does. -/
theorem trial_disabled_gating
    (settings : List (String × Bool)) (students : List (Nat × Int × Int))
    (sid : Nat) (delta : Int) (usages : List (Nat × Nat))
    (st : Student) (m : Bool)
    (hoff : getBoolSetting settings "trial_lessons.enabled" true = false) :
    getTrialLessonsStudents settings students = .error 403 ∧
    adjustStudentTrialLessons settings students sid delta = .error 403 ∧
    getStudentTrialHistory settings usages sid = .error 403 ∧
    trialLessonRoute settings st m = trialLesson st m := by
  unfold getTrialLessonsStudents adjustStudentTrialLessons getStudentTrialHistory
    trialLessonRoute
  rw [hoff]
  simp

/-- Witness for `trial_disabled_gating` at a concrete disabled-settings
store. -/
theorem trial_disabled_gating_witness :
    getTrialLessonsStudents [("trial_lessons.enabled", false)] [(7, 1, 0)] = .error 403 ∧
    adjustStudentTrialLessons [("trial_lessons.enabled", false)] [(7, 1, 0)] 7 1 = .error 403 ∧
    getStudentTrialHistory [("trial_lessons.enabled", false)] [(7, 3)] 7 = .error 403 ∧
    trialLessonRoute [("trial_lessons.enabled", false)] ⟨false, 1, 0⟩ false =
      trialLesson ⟨false, 1, 0⟩ false :=
  trial_disabled_gating [("trial_lessons.enabled", false)] [(7, 1, 0)] 7 1
    [(7, 3)] ⟨false, 1, 0⟩ false rfl

/-- Two-decimal rounding moves a value by at most half a cent. -/
theorem round2_abs_sub_le (q : ℚ) : |round2 q - q| ≤ 1 / 200 := by
  have h1 : ((⌊q * 100 + 1 / 2⌋ : ℤ) : ℚ) ≤ q * 100 + 1 / 2 := Int.floor_le _
  have h2 : q * 100 + 1 / 2 - 1 < ((⌊q * 100 + 1 / 2⌋ : ℤ) : ℚ) :=
    Int.sub_one_lt_floor _
  rw [abs_le]
  unfold round2
  constructor <;> linarith

/-- The 0-5 → 0-100 → 0-5 composition of the stored-value updates returns to
within 0.01 of the original value. -/
theorem grade_roundtrip_rat (v : ℚ) :
    |round2 (round2 (v * 20) * (5 / 100)) - v| ≤ 1 / 100 := by
  have h1 := round2_abs_sub_le (v * 20)
  have h2 := round2_abs_sub_le (round2 (v * 20) * (5 / 100))
  rw [abs_le] at h1 h2 ⊢
  obtain ⟨h1a, h1b⟩ := h1
  obtain ⟨h2a, h2b⟩ := h2
  constructor <;> linarith

/-- After `_ensure_grades_scale_applied` runs, the applied-scale marker names
the configured scale, and the configured scale is untouched. -/
theorem ensure_marker_set (s : GradesState) :
    (ensureGradesScaleApplied s).appliedScale = some s.currentScale ∧
    (ensureGradesScaleApplied s).currentScale = s.currentScale := by
  obtain ⟨g, cur, app⟩ := s
  cases app with
  | none => exact ⟨rfl, rfl⟩
  | some a =>
    by_cases h : a = cur
    · subst h
      simp [ensureGradesScaleApplied]
    · simp [ensureGradesScaleApplied, h]

/-- C5: converting 0-5 to 0-100 rescales every stored value by the factor 20
(and the reverse direction by 0.05), stored with the update's two-decimal
rounding; the applied-scale marker is set to the configured scale and a
repeated run of the guard changes nothing (the conversion runs at most once
per transition); and the 0-5 → 0-100 → 0-5 round trip returns every
`v ∈ [0, 5]` to within 0.01. -/
theorem grade_scale_conversion :
    (∀ g : List ℚ, convertGradesScale "0-5" "0-100" g =
      g.map (fun v => round2 (v * 20))) ∧
    (∀ g : List ℚ, convertGradesScale "0-100" "0-5" g =
      g.map (fun v => round2 (v * (5 / 100)))) ∧
    (∀ s : GradesState,
      (ensureGradesScaleApplied s).appliedScale = some s.currentScale) ∧
    (∀ s : GradesState, ensureGradesScaleApplied (ensureGradesScaleApplied s) =
      ensureGradesScaleApplied s) ∧
    (∀ v : ℚ, 0 ≤ v → v ≤ 5 →
      |round2 (round2 (v * 20) * (5 / 100)) - v| ≤ 1 / 100) := by
  refine ⟨?_, ?_, fun s => (ensure_marker_set s).1, ?_, fun v _ _ => grade_roundtrip_rat v⟩
  · intro g
    unfold convertGradesScale
    rw [if_neg (by decide), if_pos ⟨rfl, rfl⟩]
  · intro g
    unfold convertGradesScale
    rw [if_neg (by decide), if_neg (by decide), if_pos ⟨rfl, rfl⟩]
  · intro s
    have h1 := (ensure_marker_set s).1
    have h2 := (ensure_marker_set s).2
    rcases ht : ensureGradesScaleApplied s with ⟨g', cur', app'⟩
    rw [ht] at h1 h2
    simp only at h1 h2
    rw [← h2] at h1
    simp [ensureGradesScaleApplied, h1]

/-- Witness for `grade_scale_conversion`: the round-trip bound at the
concrete value 2.5, obtained from the theorem. -/
theorem grade_scale_conversion_witness :
    |round2 (round2 ((5 / 2 : ℚ) * 20) * (5 / 100)) - 5 / 2| ≤ 1 / 100 :=
  grade_scale_conversion.2.2.2.2 (5 / 2) (by norm_num) (by norm_num)

/-- C6: `_ensure_grades_scale_applied` issues its statements on the
connection pool with no enclosing transaction, so in the converting run the
state after the grades `UPDATE` and before the marker upsert is committed and
visible — it differs from both the initial and the final state, contradicting
atomicity.  Concrete failing input: stored grades `[2.5]`, marker `"0-5"`,
configured scale `"0-100"`. -/
theorem grade_conversion_intermediate_state_visible :
    ensureGradesVisibleStates ⟨[5 / 2], "0-100", some "0-5"⟩ =
      [⟨[5 / 2], "0-100", some "0-5"⟩,
       ⟨[50], "0-100", some "0-5"⟩,
       ⟨[50], "0-100", some "0-100"⟩] ∧
    (⟨[50], "0-100", some "0-5"⟩ : GradesState) ≠ ⟨[5 / 2], "0-100", some "0-5"⟩ ∧
    (⟨[50], "0-100", some "0-5"⟩ : GradesState) ≠
      ensureGradesScaleApplied ⟨[5 / 2], "0-100", some "0-5"⟩ := by
  have hr : round2 ((5 / 2 : ℚ) * 20) = 50 := by norm_num [round2]
  have hc : convertGradesScale "0-5" "0-100" [5 / 2] = [50] := by
    unfold convertGradesScale
    rw [if_neg (by decide), if_pos ⟨rfl, rfl⟩]
    simp [hr]
  have hfin : ensureGradesScaleApplied ⟨[5 / 2], "0-100", some "0-5"⟩ =
      ⟨[50], "0-100", some "0-100"⟩ := by
    simp [ensureGradesScaleApplied, hc]
  refine ⟨?_, ?_, ?_⟩
  · simp [ensureGradesVisibleStates, hc]
  · simp only [ne_eq, GradesState.mk.injEq, List.cons.injEq, and_true, true_and]
    norm_num
  · rw [hfin]
    simp

/-- C7 counterexample: `get_group_details` does not apply the claimed
formula to every student.  A trial-enrolled student with one marked `P`
record and no `trial_lesson_usages` row (the student-facing trial
registration never inserts one) is reported 0%, while the claim's formula
over the student's marked records gives 100%. -/
theorem trial_attendance_ignores_marked_records :
    groupDetailsPct true none [(600, AttStatus.P)] = 0 ∧
    round1 ((([((600 : Int), AttStatus.P)].map (fun r => statusPoints r.2)).sum /
      (([((600 : Int), AttStatus.P)].length : ℚ) * 2)) * 100) = 100 ∧
    (0 : ℚ) ≠ 100 := by
  refine ⟨?_, ?_, by norm_num⟩
  · unfold groupDetailsPct groupDetailsMarked attendancePct
    norm_num
  · have h : (([((600 : Int), AttStatus.P)].map (fun r => statusPoints r.2)).sum /
        (([((600 : Int), AttStatus.P)].length : ℚ) * 2)) * 100 = 100 := by
      norm_num [statusPoints]
    rw [h]
    unfold round1 roundHalfEven
    norm_num

/-- C7 (amended): the point mapping is P→2, E→2, L→1, A→0 and the shared
formula is `round(points / (marked * 2) * 100, 1)` with 0 (not an error) on
zero marked rows; `get_students_analytics` applies it to all of the
student's marked records of the group, with unmarked lessons never entering
the computation, and `get_group_details` does the same for non-trial
enrollments; for trial enrollments `get_group_details` restricts the
aggregation to the marked records at the student's latest recorded trial
lesson — an empty set, hence 0%, when no `trial_lesson_usages` row exists. -/
theorem attendance_percentage_paths (marks : List (Option AttStatus))
    (records : List (Int × AttStatus)) (ts : Int) (trialStart : Option Int) :
    (statusPoints .P = 2 ∧ statusPoints .E = 2 ∧
     statusPoints .L = 1 ∧ statusPoints .A = 0) ∧
    ((marks.filterMap id).length = 0 → groupAttendancePct marks = 0) ∧
    (0 < (marks.filterMap id).length →
      groupAttendancePct marks =
        round1 (((marks.filterMap id).map statusPoints).sum /
          (((marks.filterMap id).length : ℚ) * 2) * 100)) ∧
    groupAttendancePct (none :: marks) = groupAttendancePct marks ∧
    groupDetailsPct false trialStart records =
      attendancePct (records.map Prod.snd) ∧
    groupDetailsPct true none records = 0 ∧
    groupDetailsPct true (some ts) records =
      attendancePct ((records.filter (fun r => r.1 = ts)).map Prod.snd) := by
  refine ⟨⟨rfl, rfl, rfl, rfl⟩, ?_, ?_, ?_, rfl, ?_, rfl⟩
  · intro h
    unfold groupAttendancePct attendancePct
    rw [h]
    norm_num
  · intro h
    unfold groupAttendancePct attendancePct
    rw [if_pos]
    positivity
  · simp [groupAttendancePct]
  · show attendancePct [] = 0
    unfold attendancePct
    norm_num

/-- Witness for `attendance_percentage_paths`: a student marked present at
one lesson and absent at another with a third lesson unmarked scores by the
formula; a student with only unmarked lessons scores 0; and the
trial-branch equations at a concrete record list. -/
theorem attendance_percentage_paths_witness :
    groupAttendancePct [some .P, none, some .A] =
      round1 ((([some AttStatus.P, none, some .A].filterMap id).map statusPoints).sum /
        ((([some AttStatus.P, none, some .A].filterMap id).length : ℚ) * 2) * 100) ∧
    groupAttendancePct [none] = 0 ∧
    groupDetailsPct true none [(600, AttStatus.P)] = 0 ∧
    groupDetailsPct false none [(600, AttStatus.P)] =
      attendancePct ([((600 : Int), AttStatus.P)].map Prod.snd) :=
  ⟨(attendance_percentage_paths [some .P, none, some .A] [] 0 none).2.2.1 (by decide),
   (attendance_percentage_paths [none] [] 0 none).2.1 (by decide),
   (attendance_percentage_paths [] [(600, AttStatus.P)] 0 none).2.2.2.2.2.1,
   (attendance_percentage_paths [] [(600, AttStatus.P)] 0 none).2.2.2.2.1⟩

/-- Splitting `countAt` over a cons cell. -/
theorem countAt_cons (l : Lesson) (ls : List Lesson) (gid : Nat) (t : Int) :
    countAt (l :: ls) gid t =
      countAt ls gid t + (if l.groupId = gid ∧ l.start = t then 1 else 0) := by
  by_cases h : l.groupId = gid ∧ l.start = t
  · simp [countAt, List.filter_cons, h.1, h.2]
  · rw [if_neg h]
    have : (decide (l.groupId = gid) && decide (l.start = t)) = false := by
      rcases not_and_or.mp h with h' | h' <;> simp [h']
    simp [countAt, List.filter_cons, this]

/-- A populated (group, timestamp) slot makes the exact-duplicate query
match. -/
theorem countAt_pos_iff (ls : List Lesson) (gid : Nat) (t : Int) :
    0 < countAt ls gid t ↔ existsExactLesson ls gid t = true := by
  simp [countAt, existsExactLesson, List.length_pos, List.any_eq_true,
    List.filter_eq_nil_iff]

/-- A lesson already stored at exactly the proposed start makes the overlap
query of `create_group_lessons` match, for any nonempty proposed interval. -/
theorem cglConflict_of_exact (ls : List Lesson) (gid : Nat) (s e : Int)
    (hse : s < e) (h : 0 < countAt ls gid s) :
    cglConflict ls gid s e = true := by
  rw [countAt_pos_iff] at h
  simp only [existsExactLesson, List.any_eq_true, Bool.and_eq_true,
    decide_eq_true_eq] at h
  obtain ⟨l, hl, hg, hs⟩ := h
  simp only [cglConflict, List.any_eq_true, Bool.and_eq_true, decide_eq_true_eq]
  refine ⟨l, hl, hg, ?_⟩
  simp only [cglOverlapB, Bool.or_eq_true, Bool.and_eq_true, decide_eq_true_eq,
    ge_iff_le]
  omega

/-- The `add_group_schedule` loop never removes a lesson row. -/
theorem addGenLoop_mem (gid tm : Nat) (dur : Int) (endDate : Nat)
    (current created : Nat) (lessons : List Lesson) (l : Lesson)
    (hl : l ∈ lessons) :
    l ∈ (addGenLoop gid tm dur endDate current created lessons).1 := by
  induction current, created, lessons using addGenLoop.induct gid tm dur endDate with
  | case1 current created lessons hcond hc ih =>
    rw [addGenLoop, if_pos hcond, if_pos hc]
    exact ih hl
  | case2 current created lessons hcond hc ih =>
    rw [addGenLoop, if_pos hcond, if_neg hc]
    exact ih (List.mem_cons_of_mem _ hl)
  | case3 current created lessons hcond =>
    rw [addGenLoop, if_neg hcond]
    exact hl

/-- Every row the `add_group_schedule` loop adds starts no earlier than the
slot of the loop's current date. -/
theorem addGenLoop_new_ge (gid tm : Nat) (dur : Int) (endDate : Nat)
    (current created : Nat) (lessons : List Lesson) :
    ∀ l ∈ (addGenLoop gid tm dur endDate current created lessons).1,
      l ∈ lessons ∨ ((current * 1440 + tm : Nat) : Int) ≤ l.start := by
  induction current, created, lessons using addGenLoop.induct gid tm dur endDate with
  | case1 current created lessons hcond hc ih =>
    rw [addGenLoop, if_pos hcond, if_pos hc]
    intro l hl
    rcases ih l hl with h | h
    · exact Or.inl h
    · right
      have : ((current * 1440 + tm : Nat) : Int) ≤ (((current + 7) * 1440 + tm : Nat) : Int) := by
        push_cast
        omega
      omega
  | case2 current created lessons hcond hc ih =>
    rw [addGenLoop, if_pos hcond, if_neg hc]
    intro l hl
    rcases ih l hl with h | h
    · rcases List.mem_cons.mp h with h' | h'
      · right
        subst h'
        exact le_refl _
      · exact Or.inl h'
    · right
      have : ((current * 1440 + tm : Nat) : Int) ≤ (((current + 7) * 1440 + tm : Nat) : Int) := by
        push_cast
        omega
      omega
  | case3 current created lessons hcond =>
    rw [addGenLoop, if_neg hcond]
    intro l hl
    exact Or.inl hl

/-- The `add_group_schedule` loop respects its 20-instance cap. -/
theorem addGenLoop_cap (gid tm : Nat) (dur : Int) (endDate : Nat)
    (current created : Nat) (lessons : List Lesson) (h : created ≤ 20) :
    (addGenLoop gid tm dur endDate current created lessons).2 ≤ 20 := by
  induction current, created, lessons using addGenLoop.induct gid tm dur endDate with
  | case1 current created lessons hcond hc ih =>
    rw [addGenLoop, if_pos hcond, if_pos hc]
    exact ih h
  | case2 current created lessons hcond hc ih =>
    rw [addGenLoop, if_pos hcond, if_neg hc]
    exact ih (by omega)
  | case3 current created lessons hcond =>
    rw [addGenLoop, if_neg hcond]
    exact h

/-- The `add_group_schedule` loop does not add to an already-populated
(group, exact timestamp) slot. -/
theorem addGenLoop_count (gid tm : Nat) (dur : Int) (endDate : Nat)
    (current created : Nat) (lessons : List Lesson) (gid' : Nat) (t : Int)
    (h : 0 < countAt lessons gid' t) :
    countAt (addGenLoop gid tm dur endDate current created lessons).1 gid' t =
      countAt lessons gid' t := by
  induction current, created, lessons using addGenLoop.induct gid tm dur endDate with
  | case1 current created lessons hcond hc ih =>
    rw [addGenLoop, if_pos hcond, if_pos hc]
    exact ih h
  | case2 current created lessons hcond hc ih =>
    rw [addGenLoop, if_pos hcond, if_neg hc]
    have hnew : countAt ((⟨0, gid, ((current * 1440 + tm : Nat) : Int), dur⟩ : Lesson)
        :: lessons) gid' t = countAt lessons gid' t := by
      rw [countAt_cons]
      rw [if_neg]
      · omega
      · rintro ⟨hg, hs⟩
        simp only at hg hs
        subst hg
        subst hs
        rw [countAt_pos_iff] at h
        rw [h] at hc
        exact hc rfl
    rw [ih (by rw [hnew]; exact h), hnew]
  | case3 current created lessons hcond =>
    rw [addGenLoop, if_neg hcond]

/-- Closed form of the weekday-advance loop: with a valid target it needs at
most `(target + 7 - d % 7) % 7 < fuel` steps. -/
theorem advanceToWeekday_closed (fuel d target : Nat) (h : target < 7)
    (hf : (target + 7 - d % 7) % 7 < fuel) :
    advanceToWeekday fuel d target = d + (target + 7 - d % 7) % 7 := by
  induction fuel generalizing d with
  | zero => omega
  | succ n ih =>
    unfold advanceToWeekday
    by_cases hd : pyWeekday d = target
    · rw [if_pos hd]
      unfold pyWeekday at hd
      omega
    · rw [if_neg hd]
      unfold pyWeekday at hd
      rw [ih (d + 1) (by omega)]
      omega

/-- With a valid target weekday, fuel 7 reaches the first date on or after
`d` whose weekday is the target. -/
theorem advanceToWeekday_spec (d target : Nat) (h : target < 7) :
    pyWeekday (advanceToWeekday 7 d target) = target ∧
    d ≤ advanceToWeekday 7 d target ∧
    ∀ d', d ≤ d' → pyWeekday d' = target → advanceToWeekday 7 d target ≤ d' := by
  rw [advanceToWeekday_closed 7 d target h (by omega)]
  unfold pyWeekday
  refine ⟨by omega, by omega, ?_⟩
  intro d' h1 h2
  omega

/-- When the first candidate date is within the horizon and its slot is
free, the `add_group_schedule` loop creates the lesson at that slot. -/
theorem addGenLoop_first_insert (gid tm : Nat) (dur : Int) (endDate : Nat)
    (current created : Nat) (lessons : List Lesson)
    (hle : current ≤ endDate) (hcr : created < 20)
    (hfree : existsExactLesson lessons gid ((current * 1440 + tm : Nat) : Int) = false) :
    (⟨0, gid, ((current * 1440 + tm : Nat) : Int), dur⟩ : Lesson) ∈
      (addGenLoop gid tm dur endDate current created lessons).1 := by
  rw [addGenLoop, if_pos ⟨hle, hcr⟩, if_neg (by rw [hfree]; exact Bool.false_ne_true)]
  exact addGenLoop_mem _ _ _ _ _ _ _ _ (List.mem_cons_self _ _)

/-- C4: for the schedule-add generation path with a requested day-of-week
`dow ∈ 0..6` (0 = Sunday), the generation starts at the first calendar date
`≥ max(today, group.start_date)` whose Python (Monday-0) weekday equals
`(dow - 1) % 7`; when that date is within the horizon and its slot is not
already populated, the lesson at that date's slot is created and every other
created lesson lies at a later slot; and one invocation creates at most 20
instances. -/
theorem add_schedule_generation
    (gid dow tm : Nat) (dur : Int) (today startDate endDate : Nat)
    (lessons : List Lesson) (hdow : dow < 7)
    (hle : addFirstDate dow today startDate ≤ endDate)
    (hfree : existsExactLesson lessons gid
      (((addFirstDate dow today startDate) * 1440 + tm : Nat) : Int) = false) :
    pyWeekday (addFirstDate dow today startDate) = dowToPyWeekday dow ∧
    max startDate today ≤ addFirstDate dow today startDate ∧
    (∀ d', max startDate today ≤ d' → pyWeekday d' = dowToPyWeekday dow →
      addFirstDate dow today startDate ≤ d') ∧
    (⟨0, gid, (((addFirstDate dow today startDate) * 1440 + tm : Nat) : Int), dur⟩ : Lesson) ∈
      (addGroupScheduleGen gid dow tm dur today startDate endDate lessons).1 ∧
    (∀ l ∈ (addGroupScheduleGen gid dow tm dur today startDate endDate lessons).1,
      l ∉ lessons →
        (((addFirstDate dow today startDate) * 1440 + tm : Nat) : Int) ≤ l.start) ∧
    (addGroupScheduleGen gid dow tm dur today startDate endDate lessons).2 ≤ 20 := by
  have htgt : dowToPyWeekday dow < 7 := by
    unfold dowToPyWeekday
    omega
  have hspec := advanceToWeekday_spec (max startDate today) (dowToPyWeekday dow) htgt
  refine ⟨hspec.1, hspec.2.1, hspec.2.2, ?_, ?_, ?_⟩
  · exact addGenLoop_first_insert _ _ _ _ _ _ _ hle (by omega) hfree
  · intro l hl hnl
    rcases addGenLoop_new_ge gid tm dur endDate (addFirstDate dow today startDate)
      0 lessons l hl with h | h
    · exact absurd h hnl
    · exact h
  · exact addGenLoop_cap _ _ _ _ _ _ _ (by omega)

/-- Witness for `add_schedule_generation`: group with `start_date`
2024-01-01 (day 0, a Monday), weekly Monday 10:00 schedule with horizon day
0 — the first generated lesson is at day 0, 10:00, and at most 20 instances
are created. -/
theorem add_schedule_generation_witness :
    (⟨0, 1, ((600 : Nat) : Int), 90⟩ : Lesson) ∈
      (addGroupScheduleGen 1 1 600 90 0 0 0 []).1 ∧
    (addGroupScheduleGen 1 1 600 90 0 0 0 []).2 ≤ 20 := by
  have h := add_schedule_generation 1 1 600 90 0 0 0 [] (by norm_num)
    (by decide) rfl
  exact ⟨h.2.2.2.1, h.2.2.2.2.2⟩

/-- The `create_group_lessons` repeat loop does not add to an
already-populated (group, exact timestamp) slot: the overlap query matches
the exact duplicate, so the loop skips it. -/
theorem cglGenLoop_count (gid tm te : Nat) (endDate : Nat)
    (step : Nat → Nat) (hstep : ∀ d, d < step d)
    (current created : Nat) (lessons : List Lesson) (gid' : Nat) (t : Int)
    (hte : tm < te) (h : 0 < countAt lessons gid' t) :
    countAt (cglGenLoop gid tm te endDate step hstep current created lessons).1 gid' t =
      countAt lessons gid' t := by
  induction current, created, lessons using cglGenLoop.induct gid tm te endDate step hstep with
  | case1 current created lessons hcond hc ih =>
    rw [cglGenLoop, if_pos hcond, if_pos hc]
    exact ih h
  | case2 current created lessons hcond hc ih =>
    rw [cglGenLoop, if_pos hcond, if_neg hc]
    have hnew : countAt ((⟨0, gid, ((current * 1440 + tm : Nat) : Int),
        (te : Int) - (tm : Int)⟩ : Lesson) :: lessons) gid' t = countAt lessons gid' t := by
      rw [countAt_cons]
      rw [if_neg]
      · omega
      · rintro ⟨hg, hs⟩
        simp only at hg hs
        subst hg
        subst hs
        exact hc (cglConflict_of_exact lessons gid _ _ (by push_cast; omega) h)
    rw [ih (by rw [hnew]; exact h), hnew]
  | case3 current created lessons hcond =>
    rw [cglGenLoop, if_neg hcond]

/-- C3: generation is idempotent on (group, exact start timestamp): for a
slot that already holds a lesson row, the schedule-add loop, the recurring
`create_group_lessons` loop and the weekly `generate_lesson_instances` step
leave the number of rows at that slot unchanged, and the single-lesson
branch of `create_group_lessons` rejects with 400 rather than inserting. -/
theorem generation_idempotent_on_slot :
    (∀ (gid tm : Nat) (dur : Int) (endDate current created : Nat)
        (lessons : List Lesson) (gid' : Nat) (t : Int),
      0 < countAt lessons gid' t →
      countAt (addGenLoop gid tm dur endDate current created lessons).1 gid' t =
        countAt lessons gid' t) ∧
    (∀ (gid tm te endDate : Nat) (step : Nat → Nat) (hstep : ∀ d, d < step d)
        (current created : Nat) (lessons : List Lesson) (gid' : Nat) (t : Int),
      tm < te →
      0 < countAt lessons gid' t →
      countAt (cglGenLoop gid tm te endDate step hstep current created lessons).1 gid' t =
        countAt lessons gid' t) ∧
    (∀ (lessons : List Lesson) (gid dow tm : Nat) (dur : Int) (weekStart : Nat)
        (gid' : Nat) (t : Int),
      0 < countAt lessons gid' t →
      countAt (genInstanceStep lessons gid dow tm dur weekStart) gid' t =
        countAt lessons gid' t) ∧
    (∀ (gid date tm te : Nat) (lessons : List Lesson),
      tm < te →
      0 < countAt lessons gid ((date * 1440 + tm : Nat) : Int) →
      cglSingle gid date tm te lessons = .error 400) := by
  refine ⟨fun gid tm dur endDate current created lessons gid' t h =>
      addGenLoop_count gid tm dur endDate current created lessons gid' t h,
    fun gid tm te endDate step hstep current created lessons gid' t hte h =>
      cglGenLoop_count gid tm te endDate step hstep current created lessons gid' t hte h,
    ?_, ?_⟩
  · intro lessons gid dow tm dur weekStart gid' t h
    unfold genInstanceStep
    split_ifs with hex
    · rfl
    · rw [countAt_cons, if_neg]
      · omega
      · rintro ⟨hg, hs⟩
        simp only at hg hs
        subst hg
        rw [countAt_pos_iff, ← hs] at h
        rw [h] at hex
        exact hex rfl
  · intro gid date tm te lessons hte h
    unfold cglSingle
    rw [if_pos (cglConflict_of_exact lessons gid _ _ (by push_cast; omega) h)]

/-- Witness for `generation_idempotent_on_slot`: with one lesson of group 1
already at day 0, 10:00, re-running each generation path for that slot
leaves exactly one row there, and the single-lesson path errors. -/
theorem generation_idempotent_on_slot_witness :
    countAt (addGenLoop 1 600 90 0 0 0 [⟨5, 1, 600, 90⟩]).1 1 600 =
      countAt [(⟨5, 1, 600, 90⟩ : Lesson)] 1 600 ∧
    countAt (cglGenLoop 1 600 690 0 stepWeekly (fun d => Nat.lt_add_of_pos_right (by norm_num))
        0 0 [⟨5, 1, 600, 90⟩]).1 1 600 = countAt [(⟨5, 1, 600, 90⟩ : Lesson)] 1 600 ∧
    countAt (genInstanceStep [⟨5, 1, 600, 90⟩] 1 1 600 90 0) 1 600 =
      countAt [(⟨5, 1, 600, 90⟩ : Lesson)] 1 600 ∧
    cglSingle 1 0 600 690 [⟨5, 1, 600, 90⟩] = .error 400 :=
  ⟨generation_idempotent_on_slot.1 1 600 90 0 0 0 [⟨5, 1, 600, 90⟩] 1 600 (by decide),
   generation_idempotent_on_slot.2.1 1 600 690 0 stepWeekly
     (fun d => Nat.lt_add_of_pos_right (by norm_num))
     0 0 [⟨5, 1, 600, 90⟩] 1 600 (by norm_num) (by decide),
   generation_idempotent_on_slot.2.2.1 [⟨5, 1, 600, 90⟩] 1 1 600 90 0 1 600 (by decide),
   generation_idempotent_on_slot.2.2.2 1 0 600 690 [⟨5, 1, 600, 90⟩] (by norm_num) (by decide)⟩

/-- Inserting a lesson that passed the overlap query preserves the per-group
no-overlap invariant and duration positivity. -/
theorem cons_checked_lesson (lessons : List Lesson) (gid : Nat) (s e : Int)
    (hse : s < e)
    (hdur : GroupDurationsPos gid lessons)
    (hinv : NoGroupConflicts gid lessons)
    (hc : cglConflict lessons gid s e = false) :
    GroupDurationsPos gid ((⟨0, gid, s, e - s⟩ : Lesson) :: lessons) ∧
    NoGroupConflicts gid ((⟨0, gid, s, e - s⟩ : Lesson) :: lessons) := by
  have hnoc : ∀ l ∈ lessons, l.groupId = gid → cglOverlapB l s e = false := by
    intro l hl hg
    by_contra hb
    rw [Bool.not_eq_false] at hb
    have : cglConflict lessons gid s e = true := by
      simp only [cglConflict, List.any_eq_true, Bool.and_eq_true, decide_eq_true_eq]
      exact ⟨l, hl, hg, hb⟩
    rw [this] at hc
    cases hc
  constructor
  · intro l hl hg
    rcases List.mem_cons.mp hl with h | h
    · subst h
      show (0 : Int) < e - s
      omega
    · exact hdur l h hg
  · unfold NoGroupConflicts
    rw [List.filter_cons_of_pos (by simp)]
    refine List.Pairwise.cons ?_ hinv
    intro b hb
    have hbl := (List.mem_filter.mp hb).1
    have hbg : b.groupId = gid := by
      have := (List.mem_filter.mp hb).2
      simpa using this
    have hover := hnoc b hbl hbg
    have hiff := cglOverlapB_iff b s e hse (hdur b hbl hbg)
    rw [hover] at hiff
    simp only [Bool.false_eq_true, false_iff] at hiff
    have hEnd : lessonEnd (⟨0, gid, s, e - s⟩ : Lesson) = e := by
      show s + (e - s) = e
      omega
    rw [hEnd]
    show ¬ (s < lessonEnd b ∧ b.start < e)
    exact hiff

/-- The recurring-generation loop of `create_group_lessons` preserves the
per-group no-overlap invariant (every insert is guarded by the overlap
query). -/
theorem cglGenLoop_invariant (gid tm te : Nat) (endDate : Nat)
    (step : Nat → Nat) (hstep : ∀ d, d < step d)
    (current created : Nat) (lessons : List Lesson)
    (hte : tm < te)
    (hdur : GroupDurationsPos gid lessons)
    (hinv : NoGroupConflicts gid lessons) :
    GroupDurationsPos gid
      (cglGenLoop gid tm te endDate step hstep current created lessons).1 ∧
    NoGroupConflicts gid
      (cglGenLoop gid tm te endDate step hstep current created lessons).1 := by
  induction current, created, lessons using cglGenLoop.induct gid tm te endDate step hstep with
  | case1 current created lessons hcond hc ih =>
    rw [cglGenLoop, if_pos hcond, if_pos hc]
    exact ih hdur hinv
  | case2 current created lessons hcond hc ih =>
    rw [cglGenLoop, if_pos hcond, if_neg hc]
    have hse : ((current * 1440 + tm : Nat) : Int) < ((current * 1440 + te : Nat) : Int) := by
      push_cast
      omega
    have hcast : ((current * 1440 + te : Nat) : Int) - ((current * 1440 + tm : Nat) : Int) =
        (te : Int) - (tm : Int) := by
      push_cast
      ring
    have hcons := cons_checked_lesson lessons gid ((current * 1440 + tm : Nat) : Int)
      ((current * 1440 + te : Nat) : Int) hse hdur hinv (Bool.not_eq_true _ ▸ hc)
    rw [hcast] at hcons
    exact ih hcons.1 hcons.2
  | case3 current created lessons hcond =>
    rw [cglGenLoop, if_neg hcond]
    exact ⟨hdur, hinv⟩

/-- When `reschedule_lesson` succeeds, no other lesson of the moved lesson's
group overlaps the new interval: the conflict query returned no row. -/
theorem reschedule_checked (lessons : List Lesson) (lid : Nat) (ns : Int)
    (l0 : Lesson) (lessons' : List Lesson)
    (hfind : lessons.find? (fun l => l.id == lid) = some l0)
    (hok : rescheduleLesson lessons lid ns = .ok lessons') :
    ∀ l' ∈ lessons, l'.groupId = l0.groupId → l'.id ≠ lid →
      ¬ (l'.start < ns + pyOr60 l0.duration ∧ ns < lessonEnd l') := by
  unfold rescheduleLesson at hok
  rw [hfind] at hok
  dsimp only at hok
  cases hm : lessons.find? (fun x =>
      reschedMatch x l0.groupId lid ns (ns + pyOr60 l0.duration)) with
  | some c =>
    rw [hm] at hok
    simp at hok
  | none =>
    intro l' hl' hg hid
    have hnm := List.find?_eq_none.mp hm l' hl'
    simp only [reschedMatch, Bool.and_eq_true, decide_eq_true_eq] at hnm
    rintro ⟨h1, h2⟩
    exact hnm ⟨⟨⟨hg, hid⟩, h1⟩, h2⟩

/-- C1 counterexample: the manual lesson-creation route (`POST /lessons`)
performs no conflict check — creating a 10:00–11:30 lesson for a group that
already has a 10:30–12:00 lesson yields a state with two overlapping lessons
of the same group, so the Conflict Checker is not invoked on every
lesson-creating operation. -/
theorem manual_create_lesson_unchecked_overlap :
    hasGroupOverlap (createLesson [⟨1, 1, 630, 90⟩] ⟨2, 1, 600, 90⟩) = true := by
  decide

/-- C1 (amended): the Conflict Checker guards the `create_group_lessons`
paths and `reschedule_lesson` — the recurring loop preserves the per-group
no-overlap invariant, the single-lesson branch only inserts after the
overlap query returns nothing, and a successful reschedule leaves the moved
lesson non-overlapping with every other lesson of its group; manual lesson
creation and the schedule-add generation path perform no overlap check and
can produce overlapping lessons of the same group. -/
theorem conflict_checker_enforcement :
    (∀ (gid tm te endDate : Nat) (step : Nat → Nat) (hstep : ∀ d, d < step d)
        (current created : Nat) (lessons : List Lesson),
      tm < te → GroupDurationsPos gid lessons → NoGroupConflicts gid lessons →
      NoGroupConflicts gid
        (cglGenLoop gid tm te endDate step hstep current created lessons).1) ∧
    (∀ (gid date tm te : Nat) (lessons lessons' : List Lesson),
      tm < te → GroupDurationsPos gid lessons → NoGroupConflicts gid lessons →
      cglSingle gid date tm te lessons = .ok lessons' →
      NoGroupConflicts gid lessons') ∧
    (∀ (lessons : List Lesson) (lid : Nat) (ns : Int) (l0 : Lesson)
        (lessons' : List Lesson),
      lessons.find? (fun l => l.id == lid) = some l0 →
      rescheduleLesson lessons lid ns = .ok lessons' →
      ∀ l' ∈ lessons, l'.groupId = l0.groupId → l'.id ≠ lid →
        ¬ (l'.start < ns + pyOr60 l0.duration ∧ ns < lessonEnd l')) ∧
    hasGroupOverlap (addGroupScheduleGen 1 1 600 90 0 0 0 [⟨5, 1, 630, 90⟩]).1 = true := by
  refine ⟨?_, ?_, reschedule_checked, ?_⟩
  · intro gid tm te endDate step hstep current created lessons hte hdur hinv
    exact (cglGenLoop_invariant gid tm te endDate step hstep current created
      lessons hte hdur hinv).2
  · intro gid date tm te lessons lessons' hte hdur hinv hok
    unfold cglSingle at hok
    by_cases hc : cglConflict lessons gid ((date * 1440 + tm : Nat) : Int)
        ((date * 1440 + te : Nat) : Int) = true
    · rw [if_pos hc] at hok
      cases hok
    · rw [Bool.not_eq_true] at hc
      rw [if_neg (by rw [hc]; exact Bool.false_ne_true)] at hok
      have hse : ((date * 1440 + tm : Nat) : Int) < ((date * 1440 + te : Nat) : Int) := by
        push_cast
        omega
      have hcast : ((date * 1440 + te : Nat) : Int) - ((date * 1440 + tm : Nat) : Int) =
          (te : Int) - (tm : Int) := by
        push_cast
        ring
      have hcons := cons_checked_lesson lessons gid ((date * 1440 + tm : Nat) : Int)
        ((date * 1440 + te : Nat) : Int) hse hdur hinv hc
      rw [hcast] at hcons
      cases hok
      exact hcons.2
  · rw [addGroupScheduleGen]
    rw [show addFirstDate 1 0 0 = 0 from rfl]
    rw [addGenLoop, if_pos (by norm_num), if_neg (by decide)]
    rw [addGenLoop, if_neg (by norm_num)]
    decide

/-- Witness for `conflict_checker_enforcement`: the recurring loop starting
from an empty, conflict-free state stays conflict-free, and a concrete
successful reschedule (lesson 1 of group 1 moved to 11:40 next to a 13:20
lesson) leaves the moved interval clear of the group's other lessons. -/
theorem conflict_checker_enforcement_witness :
    NoGroupConflicts 1 (cglGenLoop 1 600 690 0 stepWeekly
      (fun d => Nat.lt_add_of_pos_right (by norm_num)) 0 0 []).1 ∧
    (∀ l' ∈ [(⟨1, 1, 600, 60⟩ : Lesson), ⟨2, 1, 800, 60⟩],
      l'.groupId = (⟨1, 1, 600, 60⟩ : Lesson).groupId → l'.id ≠ 1 →
        ¬ (l'.start < 700 + pyOr60 (⟨1, 1, 600, 60⟩ : Lesson).duration ∧
           (700 : Int) < lessonEnd l')) :=
  ⟨conflict_checker_enforcement.1 1 600 690 0 stepWeekly
     (fun d => Nat.lt_add_of_pos_right (by norm_num)) 0 0 []
     (by norm_num) (by intro l hl; simp at hl) (by unfold NoGroupConflicts; simp),
   conflict_checker_enforcement.2.2.1 [⟨1, 1, 600, 60⟩, ⟨2, 1, 800, 60⟩] 1 700
     ⟨1, 1, 600, 60⟩ [⟨1, 1, 700, 60⟩, ⟨2, 1, 800, 60⟩] rfl rfl⟩

/-- The schedule upsert stores the new time under its day. -/
theorem tableGet_upsert_self (tab : List (Int × Int)) (d t : Int) :
    tableGet (upsertSchedule tab d t) d = some t := by
  unfold upsertSchedule
  by_cases h : tab.any (fun p => decide (p.1 = d)) = true
  · rw [if_pos h]
    induction tab with
    | nil => simp at h
    | cons p tab ih =>
      by_cases hp : p.1 = d
      · simp [tableGet, List.find?, hp]
      · rw [List.map_cons, tableGet, List.find?]
        rw [if_neg hp]
        have : (p.1 == d) = false := by simp [hp]
        rw [this]
        have h' : tab.any (fun p => decide (p.1 = d)) = true := by
          simp only [List.any_cons, Bool.or_eq_true, decide_eq_true_eq] at h
          rcases h with h | h
          · exact absurd h hp
          · exact h
        exact ih h'
  · rw [if_neg h]
    rw [Bool.not_eq_true, List.any_eq_false] at h
    unfold tableGet
    rw [List.find?_append]
    have hn : tab.find? (fun p => p.1 == d) = none := by
      rw [List.find?_eq_none]
      intro p hp
      have := h p hp
      simpa using this
    rw [hn]
    simp [List.find?]

/-- The schedule upsert leaves other days' rows unchanged. -/
theorem tableGet_upsert_other (tab : List (Int × Int)) (d t d' : Int)
    (hne : d' ≠ d) :
    tableGet (upsertSchedule tab d t) d' = tableGet tab d' := by
  unfold upsertSchedule
  by_cases h : tab.any (fun p => decide (p.1 = d)) = true
  · rw [if_pos h]
    clear h
    induction tab with
    | nil => rfl
    | cons p tab ih =>
      rw [List.map_cons, tableGet, List.find?, tableGet, List.find?]
      by_cases hp : p.1 = d
      · rw [if_pos hp]
        have h1 : ((d, t).1 == d') = false := by simp [Ne.symm hne]
        have h2 : (p.1 == d') = false := by simp [hp, Ne.symm hne]
        rw [h1, h2]
        exact ih
      · rw [if_neg hp]
        by_cases hq : p.1 = d'
        · have : (p.1 == d') = true := by simp [hq]
          rw [this]
        · have : (p.1 == d') = false := by simp [hq]
          rw [this]
          exact ih
  · rw [if_neg h]
    unfold tableGet
    rw [List.find?_append]
    have hb : (d == d') = false := beq_eq_false_iff_ne.mpr (Ne.symm hne)
    have : List.find? (fun p => p.1 == d') [(d, t)] = none := by
      simp [List.find?, hb]
    rw [this]
    cases hf : tab.find? (fun p => p.1 == d') <;> rfl

/-- Folding upserts: the stored time for a day is the value of the last pair
with that day, falling back to the initial table. -/
theorem tableGet_foldl_upsert (ps : List (Int × Int)) (tab : List (Int × Int))
    (d : Int) :
    tableGet (ps.foldl (fun tb p => upsertSchedule tb p.1 p.2) tab) d =
      (lastVal ps d).orElse (fun _ => tableGet tab d) := by
  induction ps generalizing tab with
  | nil =>
    rw [lastVal, List.foldl_nil]
    rfl
  | cons p ps ih =>
    rw [List.foldl_cons, ih (upsertSchedule tab p.1 p.2), lastVal]
    cases hl : lastVal ps d with
    | some t0 => rfl
    | none =>
      show tableGet (upsertSchedule tab p.1 p.2) d =
        ((if p.1 = d then some p.2 else none).orElse fun _ => tableGet tab d)
      by_cases hp : p.1 = d
      · subst hp
        rw [if_pos rfl]
        exact tableGet_upsert_self tab p.1 p.2
      · rw [if_neg hp]
        exact tableGet_upsert_other tab p.1 p.2 d (fun he => hp he.symm)

/-- `lastVal` is `none` exactly when no pair carries the day. -/
theorem lastVal_eq_none_iff (ps : List (Int × Int)) (d : Int) :
    lastVal ps d = none ↔ ∀ p ∈ ps, p.1 ≠ d := by
  induction ps with
  | nil => simp [lastVal]
  | cons p ps ih =>
    rw [lastVal]
    cases hl : lastVal ps d with
    | some t0 =>
      show some t0 = none ↔ _
      constructor
      · intro h
        cases h
      · intro h
        have := (ih.mpr (fun q hq => h q (List.mem_cons_of_mem _ hq)))
        rw [hl] at this
        cases this
    | none =>
      show (if p.1 = d then some p.2 else none) = none ↔ _
      by_cases hp : p.1 = d
      · rw [if_pos hp]
        simp only [List.mem_cons]
        constructor
        · intro h
          cases h
        · intro h
          exact absurd hp (h p (Or.inl rfl))
      · rw [if_neg hp]
        refine iff_of_true rfl ?_
        intro q hq
        rcases List.mem_cons.mp hq with rfl | hq'
        · exact hp
        · exact (ih.mp hl) q hq'

/-- In a lexicographically sorted pair list, the last pair with a given day
carries the greatest time recorded for that day. -/
theorem lastVal_sorted_max (ps : List (Int × Int)) (d t : Int)
    (hs : ps.Pairwise pairLe) (h : lastVal ps d = some t) :
    (d, t) ∈ ps ∧ ∀ p ∈ ps, p.1 = d → p.2 ≤ t := by
  induction ps with
  | nil => cases h
  | cons p ps ih =>
    rw [lastVal] at h
    rcases List.pairwise_cons.mp hs with ⟨hp, hs'⟩
    cases hl : lastVal ps d with
    | some t0 =>
      rw [hl] at h
      have ht : t0 = t := by
        cases h
        rfl
      subst ht
      obtain ⟨hmem, hmax⟩ := ih hs' hl
      refine ⟨List.mem_cons_of_mem _ hmem, ?_⟩
      intro q hq hqd
      rcases List.mem_cons.mp hq with rfl | hq'
      · have := hp (d, t0) hmem
        unfold pairLe at this
        simp only at this
        omega
      · exact hmax q hq' hqd
    | none =>
      rw [hl] at h
      show _ ∧ _
      by_cases hpd : p.1 = d
      · rw [if_pos hpd] at h
        have ht : p.2 = t := by
          cases h
          rfl
        constructor
        · have hpe : p = (d, t) := by
            rw [← hpd, ← ht]
          exact hpe ▸ List.mem_cons_self p ps
        · intro q hq hqd
          rcases List.mem_cons.mp hq with rfl | hq'
          · omega
          · exact absurd hqd ((lastVal_eq_none_iff ps d).mp hl q hq')
      · rw [if_neg hpd] at h
        cases h

/-- Membership in the distinct sorted pair list of the sync query. -/
theorem mem_syncPairs (ls : List Lesson) (gid : Nat) (d t : Int) :
    (d, t) ∈ syncPairs ls gid ↔
      ∃ l ∈ ls, l.groupId = gid ∧ pgDow l.start = d ∧ timeOfDay l.start = t := by
  unfold syncPairs sortPairs
  rw [List.mem_insertionSort, List.mem_dedup]
  simp only [List.mem_map, List.mem_filter, decide_eq_true_eq, Prod.mk.injEq]
  constructor
  · rintro ⟨l, ⟨hl, hg⟩, hd, ht⟩
    exact ⟨l, hl, hg, hd, ht⟩
  · rintro ⟨l, hl, hg, hd, ht⟩
    exact ⟨l, ⟨hl, hg⟩, hd, ht⟩

/-- The sorted distinct pair list is sorted. -/
theorem syncPairs_sorted (ls : List Lesson) (gid : Nat) :
    (syncPairs ls gid).Pairwise pairLe :=
  List.sorted_insertionSort pairLe _

/-- The upsert preserves distinctness of the day keys. -/
theorem upsert_keys_nodup (tab : List (Int × Int)) (d t : Int)
    (h : (tab.map Prod.fst).Nodup) :
    ((upsertSchedule tab d t).map Prod.fst).Nodup := by
  unfold upsertSchedule
  by_cases ha : tab.any (fun p => decide (p.1 = d)) = true
  · rw [if_pos ha]
    have : (tab.map (fun p => if p.1 = d then (d, t) else p)).map Prod.fst =
        tab.map Prod.fst := by
      rw [List.map_map]
      apply List.map_congr_left
      intro p _
      by_cases hp : p.1 = d
      · simp [hp]
      · simp [hp]
    rw [this]
    exact h
  · rw [if_neg ha]
    rw [Bool.not_eq_true, List.any_eq_false] at ha
    rw [List.map_append]
    refine List.Nodup.append h (by simp) ?_
    intro x hx hx'
    simp only [List.map_cons, List.map_nil, List.mem_singleton] at hx'
    subst hx'
    obtain ⟨p, hp, hpd⟩ := List.mem_map.mp hx
    have := ha p hp
    simp only [decide_eq_true_eq] at this
    exact this hpd

/-- The per-group schedule table built by the sync has distinct day keys. -/
theorem syncGroupSchedules_keys_nodup (ls : List Lesson) (gid : Nat) :
    ((syncGroupSchedules ls gid).map Prod.fst).Nodup := by
  unfold syncGroupSchedules
  generalize syncPairs ls gid = ps
  have : ∀ (tab : List (Int × Int)), (tab.map Prod.fst).Nodup →
      ((ps.foldl (fun tb p => upsertSchedule tb p.1 p.2) tab).map Prod.fst).Nodup := by
    induction ps with
    | nil => exact fun tab h => h
    | cons p ps ih =>
      intro tab h
      rw [List.foldl_cons]
      exact ih _ (upsert_keys_nodup tab p.1 p.2 h)
  exact this [] (by simp)

/-- The sync stores, per day, the greatest time among the group's lesson
times on that day. -/
theorem tableGet_sync (ls : List Lesson) (gid : Nat) (d : Int) :
    tableGet (syncGroupSchedules ls gid) d = lastVal (syncPairs ls gid) d := by
  unfold syncGroupSchedules
  rw [tableGet_foldl_upsert]
  cases hl : lastVal (syncPairs ls gid) d <;> rfl

/-- C8 counterexample: a group with two lessons on the same weekday at
different times (Monday 10:00 and Monday 12:00).  The distinct
(day-of-week, time) pairs of the lessons contain (Monday, 10:00), but the
sync's `ON CONFLICT (group_id, day_of_week)` upsert collapses the day to a
single row, so the pattern table does not equal the set of distinct pairs. -/
theorem sync_pattern_collapses_same_day :
    ((1 : Int), (600 : Int)) ∈ syncPairs [⟨1, 1, 600, 90⟩, ⟨2, 1, 720, 90⟩] 1 ∧
    ((1 : Int), (600 : Int)) ∉ syncGroupSchedules [⟨1, 1, 600, 90⟩, ⟨2, 1, 720, 90⟩] 1 ∧
    syncGroupSchedules [⟨1, 1, 600, 90⟩, ⟨2, 1, 720, 90⟩] 1 = [(1, 720)] := by
  refine ⟨by decide, by decide, by decide⟩

/-- C8 (amended): the `create_group_lessons` generation ends with the sync
step on its own final lesson set, and the sync produces at most one pattern
row per day-of-week: a day's row exists exactly when the group has a lesson
on that day, and it carries the greatest time-of-day among that day's
lessons (not the full set of distinct (day, time) pairs). -/
theorem sync_pattern_rows (ls : List Lesson) (gid : Nat) (d t : Int) :
    ((syncGroupSchedules ls gid).map Prod.fst).Nodup ∧
    (tableGet (syncGroupSchedules ls gid) d = some t ↔
      ((∃ l ∈ ls, l.groupId = gid ∧ pgDow l.start = d ∧ timeOfDay l.start = t) ∧
       ∀ l ∈ ls, l.groupId = gid → pgDow l.start = d → timeOfDay l.start ≤ t)) ∧
    (∀ (startDate tm te endDate : Nat) (step : Nat → Nat) (hstep : ∀ x, x < step x),
      (createGroupLessonsRepeat gid startDate tm te endDate step hstep ls).2 =
        syncGroupSchedules
          (cglGenLoop gid tm te endDate step hstep startDate 0 ls).1 gid) := by
  refine ⟨syncGroupSchedules_keys_nodup ls gid, ?_, fun _ _ _ _ _ _ => rfl⟩
  rw [tableGet_sync]
  constructor
  · intro h
    obtain ⟨hmem, hmax⟩ := lastVal_sorted_max _ d t (syncPairs_sorted ls gid) h
    refine ⟨(mem_syncPairs ls gid d t).mp hmem, ?_⟩
    intro l hl hg hd
    exact hmax (d, timeOfDay l.start)
      ((mem_syncPairs ls gid d (timeOfDay l.start)).mpr ⟨l, hl, hg, hd, rfl⟩) rfl
  · rintro ⟨⟨l0, hl0, hg0, hd0, ht0⟩, hmax⟩
    cases hv : lastVal (syncPairs ls gid) d with
    | none =>
      exact absurd ((lastVal_eq_none_iff _ d).mp hv (d, timeOfDay l0.start)
        ((mem_syncPairs ls gid d (timeOfDay l0.start)).mpr ⟨l0, hl0, hg0, hd0, rfl⟩))
        (fun hne => hne rfl)
    | some t' =>
      obtain ⟨hmem', hmax'⟩ := lastVal_sorted_max _ d t' (syncPairs_sorted ls gid) hv
      obtain ⟨l', hl', hg', hd', ht'⟩ := (mem_syncPairs ls gid d t').mp hmem'
      have h1 : t' ≤ t := ht' ▸ hmax l' hl' hg' hd'
      have h2 : t ≤ t' := by
        have := hmax' (d, t)
          ((mem_syncPairs ls gid d t).mpr ⟨l0, hl0, hg0, hd0, ht0⟩) rfl
        exact this
      rw [le_antisymm h1 h2]

/-- Witness for `sync_pattern_rows` at the concrete two-lessons-one-Monday
state: the keys are distinct and the recurring-generation operation's
pattern output is the sync of its final lessons. -/
theorem sync_pattern_rows_witness :
    ((syncGroupSchedules [⟨1, 1, 600, 90⟩, ⟨2, 1, 720, 90⟩] 1).map Prod.fst).Nodup ∧
    (createGroupLessonsRepeat 1 0 600 690 0 stepWeekly
        (fun d => Nat.lt_add_of_pos_right (by norm_num))
        [⟨1, 1, 600, 90⟩, ⟨2, 1, 720, 90⟩]).2 =
      syncGroupSchedules
        (cglGenLoop 1 600 690 0 stepWeekly
          (fun d => Nat.lt_add_of_pos_right (by norm_num)) 0 0
          [⟨1, 1, 600, 90⟩, ⟨2, 1, 720, 90⟩]).1 1 :=
  ⟨(sync_pattern_rows [⟨1, 1, 600, 90⟩, ⟨2, 1, 720, 90⟩] 1 1 720).1,
   (sync_pattern_rows [⟨1, 1, 600, 90⟩, ⟨2, 1, 720, 90⟩] 1 1 720).2.2 0 600 690 0
     stepWeekly (fun d => Nat.lt_add_of_pos_right (by norm_num))⟩

end NDA
